import Mathlib

/-!
Verification model of `microsoft_domains.py` (Microsoft Domain/IP Listing Tool).

The Python program is shallowly embedded:
  * JSON values become the inductive type `Json`; `json.dumps` (with its default
    separators `", "` and `": "`) becomes `Json.dumps`; `json.loads` becomes the
    fuel-based parser `parseJson` (integers only, no `\u` escapes — the upstream
    payloads use neither floats nor unicode escapes).
  * The file system and the diagnostic channel become the explicit state
    `FSState` (files with contents and modification times, existing
    directories, the stderr log); `time.time()` becomes an explicit `now`.
  * The producer ("operation") passed to `use_cache` is modelled by the value
    it would return; `use_cache` additionally reports how many times the
    producer was invoked.
  * Exceptions become `Option`/`Except`: `none`/`.error` marks an exception
    propagating out of the modelled code.
-/

set_option maxHeartbeats 1000000

namespace MSDomains

/-- JSON values, as produced by `json.loads` / consumed by `json.dumps`.
Numbers are modelled as integers (the tool's payloads contain no floats). -/
inductive Json : Type where
  | null : Json
  | bool : Bool → Json
  | num : Int → Json
  | str : String → Json
  | arr : List Json → Json
  | obj : List (String × Json) → Json
deriving Repr

/-- Escaping of a single character inside a JSON string literal
(the escapes `json.dumps` emits for the characters our model covers). -/
def escapeChar (c : Char) : String :=
  if c = '"' then "\\\""
  else if c = '\\' then "\\\\"
  else if c = '\n' then "\\n"
  else if c = '\t' then "\\t"
  else if c = '\r' then "\\r"
  else String.singleton c

def escapeString (s : String) : String :=
  String.join (s.toList.map escapeChar)

mutual

/-- `json.dumps` with Python's default separators `", "` and `": "`. -/
def Json.dumps : Json → String
  | Json.null => "null"
  | Json.bool true => "true"
  | Json.bool false => "false"
  | Json.num n => toString n
  | Json.str s => "\"" ++ escapeString s ++ "\""
  | Json.arr xs => "[" ++ dumpsList xs ++ "]"
  | Json.obj fs => "\x7b" ++ dumpsObj fs ++ "\x7d"

def dumpsList : List Json → String
  | [] => ""
  | [x] => Json.dumps x
  | x :: y :: xs => Json.dumps x ++ ", " ++ dumpsList (y :: xs)

def dumpsObj : List (String × Json) → String
  | [] => ""
  | [(k, v)] => "\"" ++ escapeString k ++ "\": " ++ Json.dumps v
  | (k, v) :: f :: fs =>
      "\"" ++ escapeString k ++ "\": " ++ Json.dumps v ++ ", " ++ dumpsObj (f :: fs)

end

/-- JSON whitespace characters. -/
def isWsChar (c : Char) : Bool :=
  c = ' ' || c = '\t' || c = '\n' || c = '\r'

def skipWs : List Char → List Char
  | [] => []
  | c :: cs => if isWsChar c then skipWs cs else c :: cs

def isDigitChar (c : Char) : Bool :=
  '0' ≤ c && c ≤ '9'

/-- Split a maximal run of leading digits off a character list. -/
def takeDigits : List Char → (List Char × List Char)
  | [] => ([], [])
  | c :: cs =>
      if isDigitChar c then
        let p := takeDigits cs
        (c :: p.1, p.2)
      else ([], c :: cs)

def digitsToNat (acc : Nat) : List Char → Nat
  | [] => acc
  | c :: cs => digitsToNat (acc * 10 + (c.toNat - '0'.toNat)) cs

/-- Expect the literal characters `lit` at the head of the input. -/
def expectLit : List Char → List Char → Option (List Char)
  | [], cs => some cs
  | _ :: _, [] => none
  | l :: ls, c :: cs => if c = l then expectLit ls cs else none

/-- Decode one escape character of a JSON string (`\uXXXX` unsupported). -/
def escChar (e : Char) : Option Char :=
  if e = '"' then some '"'
  else if e = '\\' then some '\\'
  else if e = '/' then some '/'
  else if e = 'n' then some '\n'
  else if e = 't' then some '\t'
  else if e = 'r' then some '\r'
  else if e = 'b' then some (Char.ofNat 8)
  else if e = 'f' then some (Char.ofNat 12)
  else none

/-- Parse the body of a JSON string after the opening quote; returns the
decoded characters and the input after the closing quote. -/
def parseStringBody : List Char → Option (List Char × List Char)
  | [] => none
  | '"' :: cs => some ([], cs)
  | '\\' :: e :: cs =>
      match escChar e with
      | none => none
      | some c => (parseStringBody cs).map (fun p => (c :: p.1, p.2))
  | c :: cs => (parseStringBody cs).map (fun p => (c :: p.1, p.2))

def lbrace : Char := Char.ofNat 123
def rbrace : Char := Char.ofNat 125

mutual

/-- Recursive-descent JSON parser (the model of `json.loads`), fuelled by the
nesting depth. Returns the value and the unconsumed input. -/
def parseValue : Nat → List Char → Option (Json × List Char)
  | 0, _ => none
  | fuel + 1, cs =>
    match skipWs cs with
    | [] => none
    | c :: cs' =>
      if c = 'n' then (expectLit ['u', 'l', 'l'] cs').map (fun r => (Json.null, r))
      else if c = 't' then (expectLit ['r', 'u', 'e'] cs').map (fun r => (Json.bool true, r))
      else if c = 'f' then (expectLit ['a', 'l', 's', 'e'] cs').map (fun r => (Json.bool false, r))
      else if c = '"' then (parseStringBody cs').map (fun p => (Json.str (String.mk p.1), p.2))
      else if c = '[' then
        match skipWs cs' with
        | ']' :: r => some (Json.arr [], r)
        | cs'' => (parseElems fuel cs'').map (fun p => (Json.arr p.1, p.2))
      else if c = lbrace then
        match skipWs cs' with
        | d :: r =>
            if d = rbrace then some (Json.obj [], r)
            else (parseMembers fuel (d :: r)).map (fun p => (Json.obj p.1, p.2))
        | [] => none
      else if c = '-' then
        match takeDigits cs' with
        | ([], _) => none
        | (ds, r) => some (Json.num (-(digitsToNat 0 ds : Int)), r)
      else if isDigitChar c then
        match takeDigits (c :: cs') with
        | (ds, r) => some (Json.num (digitsToNat 0 ds : Int), r)
      else none

/-- Parse the elements of a non-empty JSON array up to the closing bracket. -/
def parseElems : Nat → List Char → Option (List Json × List Char)
  | 0, _ => none
  | fuel + 1, cs => do
    let (v, r) ← parseValue fuel cs
    match skipWs r with
    | ',' :: r2 => (parseElems fuel r2).map (fun p => (v :: p.1, p.2))
    | ']' :: r2 => some ([v], r2)
    | _ => none

/-- Parse the members of a non-empty JSON object up to the closing brace. -/
def parseMembers : Nat → List Char → Option (List (String × Json) × List Char)
  | 0, _ => none
  | fuel + 1, cs =>
    match skipWs cs with
    | '"' :: cs' => do
      let (k, r) ← parseStringBody cs'
      match skipWs r with
      | ':' :: r2 => do
        let (v, r3) ← parseValue fuel r2
        match skipWs r3 with
        | ',' :: r4 => (parseMembers fuel r4).map (fun p => ((String.mk k, v) :: p.1, p.2))
        | d :: r4 =>
            if d = rbrace then some ([(String.mk k, v)], r4) else none
        | [] => none
      | _ => none
    | _ => none

end

/-- The model of `parse_json` / `json.loads`: parse a complete JSON document,
requiring the whole input to be consumed (up to trailing whitespace).
`none` models a raised `json.decoder.JSONDecodeError`. -/
def parseJson (s : String) : Option Json :=
  match parseValue (s.length + 1) s.toList with
  | some (j, rest) => if skipWs rest = [] then some j else none
  | none => none

example : parseJson "null" = some Json.null := by rfl
example : parseJson "[ ]" = some (Json.arr []) := by rfl
example : parseJson "[]" = some (Json.arr []) := by rfl
example : parseJson "x" = none := by rfl
example : parseJson "[\"a\", 5]" = some (Json.arr [Json.str "a", Json.num 5]) := by rfl
example : parseJson "\x7b\"required\": true\x7d" = some (Json.obj [("required", Json.bool true)]) := by rfl
example : Json.dumps (Json.arr []) = "[]" := by rfl
example : Json.dumps (Json.obj [("a", Json.num 1), ("b", Json.null)]) = "\x7b\"a\": 1, \"b\": null\x7d" := by rfl

/-! ## File system, time and diagnostic state -/

/-- The state the program interacts with: files (path, content, mtime),
existing directories, and the stderr diagnostic log. -/
structure FSState : Type where
  files : List (String × String × Nat)
  dirs : List String
  log : List String
deriving Repr, DecidableEq

def CACHE_FOLDER : String := "msdomaincache"

/-- `CACHE_TIMEOUT`: one hour in seconds. -/
def CACHE_TIMEOUT : Nat := 3600

/-- `os.path.join(CACHE_FOLDER, name)`. -/
def cachePath (name : String) : String := CACHE_FOLDER ++ "/" ++ name

def lookupAssoc : List (String × String × Nat) → String → Option (String × Nat)
  | [], _ => none
  | (q, e) :: rest, p => if q = p then some e else lookupAssoc rest p

def setAssoc : List (String × String × Nat) → String → String × Nat → List (String × String × Nat)
  | [], p, e => [(p, e)]
  | (q, e') :: rest, p, e => if q = p then (p, e) :: rest else (q, e') :: setAssoc rest p e

/-- Content and mtime of the file at `path`, `none` when it does not exist. -/
def lookupFile (s : FSState) (path : String) : Option (String × Nat) :=
  lookupAssoc s.files path

/-- Write (create or overwrite) the file at `path`. -/
def setFile (s : FSState) (path content : String) (mtime : Nat) : FSState :=
  { s with files := setAssoc s.files path (content, mtime) }

/-- `eprint`: append a diagnostic line to the stderr log. -/
def eprintS (s : FSState) (msg : String) : FSState :=
  { s with log := s.log ++ [msg] }

/-- `os.path.getmtime`, `none` modelling the raised `OSError`. -/
def getmtime (s : FSState) (path : String) : Option Nat :=
  (lookupFile s path).map Prod.snd

/-- `os.path.basename`. -/
def basename (path : String) : String :=
  (path.splitOn "/").getLastD ""

/-! ## Caching layer -/

/-- `cache_avail`: the cache file exists and
`time.time() - os.path.getmtime(cache_file) < CACHE_TIMEOUT`
(an `OSError` from a missing file yields `False`). -/
def cache_avail (s : FSState) (now : Nat) (cache_file : String) : Bool :=
  match getmtime s cache_file with
  | some m => now - m < CACHE_TIMEOUT
  | none => false

/-- `load_cache`: read the file and parse it as JSON. The outer `none` models
the `OSError` of a missing file, the inner `none` a `JSONDecodeError`. -/
def load_cache (s : FSState) (cache_file : String) : Option (Option Json) :=
  (lookupFile s cache_file).map (fun ct => parseJson ct.1)

/-- `write_cache`: create `CACHE_FOLDER` when absent, then write
`json.dumps data` to the file (whole-file overwrite, mtime = now). -/
def write_cache (s : FSState) (now : Nat) (cache_file : String) (data : Json) : FSState :=
  let s1 := if CACHE_FOLDER ∈ s.dirs then s else { s with dirs := CACHE_FOLDER :: s.dirs }
  setFile s1 cache_file (Json.dumps data) now

/-- Result of one `use_cache` call: the returned data, how many times the
producer ("operation") was invoked, and the state afterwards. -/
structure CacheResult : Type where
  data : Json
  calls : Nat
  state : FSState
deriving Repr

/-- The inner `build_cache` of `use_cache`: run the operation, write the
cache file, return the data. The operation is modelled by the value
`producer` it returns, so the call count here is 1. -/
def build_cache (s : FSState) (now : Nat) (cache_file : String) (producer : Json) : CacheResult :=
  ⟨producer, 1, write_cache s now cache_file producer⟩

/-- `use_cache cache_file_name operation ignorecache`. The overall `none`
models an exception escaping `use_cache` (only the unreachable `OSError`
of a file that `cache_avail` saw but `load_cache` did not find). -/
def use_cache (s : FSState) (now : Nat) (cache_file_name : String) (producer : Json)
    (ignorecache : Bool) : Option CacheResult :=
  let cache_file := cachePath cache_file_name
  if cache_avail s now cache_file && !ignorecache then
    match load_cache s cache_file with
    | some (some data) => some ⟨data, 0, eprintS s ("Using cache " ++ basename cache_file)⟩
    | some none =>
        let s1 := eprintS s "Cache corrupted"
        some (build_cache s1 now cache_file producer)
    | none => none
  else
    some (build_cache (eprintS s "Ignoring cache") now cache_file producer)

/-! ## Region and endpoint accessors

The producer functions perform a network fetch (`get_json_from_url`); the
fetch result is modelled by the parsed value the producer would return. -/

/-- `get_json_from_url`: fetch `raw` (the response body) and parse it;
`none` models an uncaught `JSONDecodeError` on a malformed response. -/
def get_json_from_url (raw : String) : Option Json :=
  parseJson raw

/-- `get_regions_data`: `use_cache("regions.cache", operation)` — note the
`ignorecache` argument is left at its default `False`. `regionsFetched` is
the value the network operation would produce. -/
def get_regions_data (s : FSState) (now : Nat) (regionsFetched : Json) : Option CacheResult :=
  use_cache s now "regions.cache" regionsFetched false

/-- `get_endpoint_data`: `use_cache("<region>.cache", operation, ignorecache)`. -/
def get_endpoint_data (s : FSState) (now : Nat) (region : String) (endpointFetched : Json)
    (ignorecache : Bool) : Option CacheResult :=
  use_cache s now (region ++ ".cache") endpointFetched ignorecache

/-! ## Item extraction (`get_items`) -/

/-- An endpoint service descriptor: a JSON object, as a key/value list. -/
abbrev Service : Type := List (String × Json)

/-- Python `dict` key lookup / the `in` test (`some` ↔ key present). -/
def lookupObj : List (String × Json) → String → Option Json
  | [], _ => none
  | (k, v) :: rest, key => if k = key then some v else lookupObj rest key

/-- Python truthiness of a JSON value (`not x` in the source negates this). -/
def truthy : Json → Bool
  | Json.null => false
  | Json.bool b => b
  | Json.num n => n ≠ 0
  | Json.str s => s ≠ ""
  | Json.arr xs => !xs.isEmpty
  | Json.obj fs => !fs.isEmpty

/-- Read a JSON array of strings as a string list (the shape of the `urls`
and `ips` fields); `none` models a `TypeError` for any other shape. -/
def strListOfJson : List Json → Option (List String)
  | [] => some []
  | Json.str s :: xs => (strListOfJson xs).map (fun l => s :: l)
  | _ :: _ => none

def asStrList : Json → Option (List String)
  | Json.arr xs => strListOfJson xs
  | _ => none

/-- A JSON array of strings (helper for stating theorems). -/
def strList (vs : List String) : Json := Json.arr (vs.map Json.str)

inductive GetErr : Type where
  | keyError : GetErr
  | typeError : GetErr
deriving Repr, DecidableEq

/-- The accumulation loop of `get_items`:
for each service containing the requested `item` field, read
`service["required"]` (`.error .keyError` when the key is absent), skip the
service when `not service["required"] and required`, otherwise extend the
accumulator with `service[item]`. -/
def collectItems : List Service → String → Bool → Except GetErr (List String)
  | [], _, _ => Except.ok []
  | svc :: rest, item, required =>
    match lookupObj svc item with
    | none => collectItems rest item required
    | some v =>
      match lookupObj svc "required" with
      | none => Except.error GetErr.keyError
      | some reqv =>
        if !truthy reqv && required then collectItems rest item required
        else
          match asStrList v with
          | none => Except.error GetErr.typeError
          | some vs => (collectItems rest item required).map (fun l => vs ++ l)

/-- `OrderedDict.fromkeys`: drop duplicates, keeping each first occurrence. -/
def dedupFirstGo (seen : List String) : List String → List String
  | [] => []
  | x :: xs => if x ∈ seen then dedupFirstGo seen xs else x :: dedupFirstGo (x :: seen) xs

def dedupFirst (l : List String) : List String := dedupFirstGo [] l

/-- Python's string comparison: lexicographic on code points. -/
def charsLe : List Char → List Char → Bool
  | [], _ => true
  | _ :: _, [] => false
  | a :: as, b :: bs => if a < b then true else if b < a then false else charsLe as bs

def strLe (a b : String) : Bool := charsLe a.toList b.toList

/-- The comparison relation `items.sort()` sorts by. -/
def strLeRel (a b : String) : Prop := strLe a b = true

instance : DecidableRel strLeRel := fun a b => by
  unfold strLeRel
  infer_instance

/-- `items.sort()`: a stable sort by the lexicographic order on strings. -/
def sortStrings (l : List String) : List String :=
  List.insertionSort strLeRel l

/-- `items.sort()` then `list(OrderedDict.fromkeys(items))`. -/
def sortDedup (l : List String) : List String :=
  dedupFirst (sortStrings l)

/-- The pure part of `get_items`, applied to the endpoint descriptor data
(the part after the `get_endpoint_data` call). -/
def get_items_pure (data : List Service) (item : String) (required : Bool) :
    Except GetErr (List String) :=
  (collectItems data item required).map sortDedup

/-! ## Output writer -/

/-- The write loop of `write_to_file`: each entry followed by a newline
separator, no newline after the final entry. -/
def write_lines : List String → String
  | [] => ""
  | [x] => x
  | x :: y :: xs => x ++ "\n" ++ write_lines (y :: xs)

/-- `write_to_file` at the level of file contents: `old` is the prior content
of the file (`none` when the file does not exist); mode `"a"` keeps it,
mode `"w"` truncates. -/
def write_to_file (old : Option String) (data : List String) (append : Bool) : String :=
  (if append then old.getD "" else "") ++ write_lines data

/-! ## CLI driver model -/

/-- Interpret cached/fetched endpoint data as a list of service descriptor
objects (the shape `main` iterates over). -/
def asServices : Json → Option (List Service)
  | Json.arr xs => xs.foldr (fun x acc =>
      match x, acc with
      | Json.obj fs, some l => some (fs :: l)
      | _, _ => none) (some [])
  | _ => none

structure RunResult : Type where
  regionCalls : Nat
  endpointCalls : Nat
  output : Except GetErr (List String)
  state : FSState
deriving Repr

/-- The driver path of `main` relevant to caching: `get_regions_list` (through
`get_regions_data`, never passing `ignorecache`) followed by
`get_items(region, item, required, ignorecache)` (through
`get_endpoint_data`, which receives `ignorecache`). -/
def run_tool (s : FSState) (now : Nat) (regionsFetched endpointFetched : Json)
    (region item : String) (required ignorecache : Bool) : Option RunResult := do
  let r1 ← get_regions_data s now regionsFetched
  let r2 ← get_endpoint_data r1.state now region endpointFetched ignorecache
  let services ← asServices r2.data
  pure ⟨r1.calls, r2.calls, get_items_pure services item required, r2.state⟩

/-! ## Helper lemmas -/

theorem lookupAssoc_setAssoc_self (fs : List (String × String × Nat)) (p : String)
    (e : String × Nat) : lookupAssoc (setAssoc fs p e) p = some e := by
  induction fs with
  | nil => simp [setAssoc, lookupAssoc]
  | cons q rest ih =>
    by_cases h : q.1 = p
    · simp [setAssoc, h, lookupAssoc]
    · simp [setAssoc, h, lookupAssoc, ih]

theorem lookupFile_write_cache_self (s : FSState) (now : Nat) (p : String) (d : Json) :
    lookupFile (write_cache s now p d) p = some (Json.dumps d, now) := by
  unfold write_cache setFile lookupFile
  by_cases h : CACHE_FOLDER ∈ s.dirs <;>
    simp [h, lookupAssoc_setAssoc_self]

theorem write_cache_log (s : FSState) (now : Nat) (p : String) (d : Json) :
    (write_cache s now p d).log = s.log := by
  unfold write_cache setFile
  by_cases h : CACHE_FOLDER ∈ s.dirs <;> simp [h]

theorem write_cache_dirs_mem (s : FSState) (now : Nat) (p : String) (d : Json) :
    CACHE_FOLDER ∈ (write_cache s now p d).dirs := by
  unfold write_cache setFile
  by_cases h : CACHE_FOLDER ∈ s.dirs <;> simp [h]

theorem lookupFile_eprintS (s : FSState) (msg p : String) :
    lookupFile (eprintS s msg) p = lookupFile s p := rfl

/-! ## Claim theorems: the caching layer -/

/-- C1: with force-refresh false, an existing cache file of age strictly
below 3600 seconds whose content parses as JSON makes `use_cache` return
the parsed content with zero producer invocations. -/
theorem use_cache_fresh_hit (s : FSState) (now : Nat) (name : String) (producer : Json)
    (content : String) (mtime : Nat) (j : Json)
    (hfile : lookupFile s (cachePath name) = some (content, mtime))
    (hfresh : now - mtime < CACHE_TIMEOUT)
    (hparse : parseJson content = some j) :
    (use_cache s now name producer false).map (fun r => (r.data, r.calls)) = some (j, 0) := by
  have havail : cache_avail s now (cachePath name) = true := by
    unfold cache_avail getmtime
    rw [hfile]
    simpa using hfresh
  unfold use_cache load_cache
  simp [havail, hfile, hparse]

/-- Witness for C1 at a concrete state. -/
theorem use_cache_fresh_hit_witness :
    (use_cache ⟨[(cachePath "k.cache", "null", 5)], [], []⟩ 10 "k.cache" (Json.num 7)
        false).map (fun r => (r.data, r.calls)) = some (Json.null, 0) :=
  use_cache_fresh_hit ⟨[(cachePath "k.cache", "null", 5)], [], []⟩ 10 "k.cache" (Json.num 7)
    "null" 5 Json.null (by rfl) (by decide) (by rfl)

/-- C2: a fresh cache file whose content fails to parse makes `use_cache`
emit "Cache corrupted", invoke the producer exactly once, overwrite the file
with the serialized producer result, and return that result; the call
returns normally (`some`), so no exception escapes. -/
theorem use_cache_corrupted_rebuild (s : FSState) (now : Nat) (name : String)
    (producer : Json) (content : String) (mtime : Nat)
    (hfile : lookupFile s (cachePath name) = some (content, mtime))
    (hfresh : now - mtime < CACHE_TIMEOUT)
    (hparse : parseJson content = none) :
    use_cache s now name producer false =
      some ⟨producer, 1, write_cache (eprintS s "Cache corrupted") now (cachePath name) producer⟩ ∧
    lookupFile (write_cache (eprintS s "Cache corrupted") now (cachePath name) producer)
      (cachePath name) = some (Json.dumps producer, now) ∧
    "Cache corrupted" ∈
      (write_cache (eprintS s "Cache corrupted") now (cachePath name) producer).log := by
  have havail : cache_avail s now (cachePath name) = true := by
    unfold cache_avail getmtime
    rw [hfile]
    simpa using hfresh
  refine ⟨?_, lookupFile_write_cache_self _ _ _ _, ?_⟩
  · unfold use_cache load_cache build_cache
    simp [havail, hfile, hparse]
  · rw [write_cache_log]
    simp [eprintS]

/-- Witness for C2 at a concrete state (content "x" is not valid JSON). -/
theorem use_cache_corrupted_rebuild_witness :
    use_cache ⟨[(cachePath "k.cache", "x", 5)], [], []⟩ 10 "k.cache" (Json.num 7) false =
      some ⟨Json.num 7, 1,
        write_cache (eprintS ⟨[(cachePath "k.cache", "x", 5)], [], []⟩ "Cache corrupted") 10
          (cachePath "k.cache") (Json.num 7)⟩ ∧
    lookupFile
      (write_cache (eprintS ⟨[(cachePath "k.cache", "x", 5)], [], []⟩ "Cache corrupted") 10
        (cachePath "k.cache") (Json.num 7)) (cachePath "k.cache") = some ("7", 10) ∧
    "Cache corrupted" ∈
      (write_cache (eprintS ⟨[(cachePath "k.cache", "x", 5)], [], []⟩ "Cache corrupted") 10
        (cachePath "k.cache") (Json.num 7)).log :=
  use_cache_corrupted_rebuild ⟨[(cachePath "k.cache", "x", 5)], [], []⟩ 10 "k.cache"
    (Json.num 7) "x" 5 (by rfl) (by decide) (by rfl)

/-- C3: with force-refresh true, or the cache file missing, or its age at
least 3600 seconds, `use_cache` invokes the producer exactly once, creates
the cache directory, overwrites the cache file with the serialized result,
and returns the producer's result. -/
theorem use_cache_miss_rebuild (s : FSState) (now : Nat) (name : String)
    (producer : Json) (ignorecache : Bool)
    (h : ignorecache = true ∨ lookupFile s (cachePath name) = none ∨
      ∃ c m, lookupFile s (cachePath name) = some (c, m) ∧ CACHE_TIMEOUT ≤ now - m) :
    use_cache s now name producer ignorecache =
      some ⟨producer, 1, write_cache (eprintS s "Ignoring cache") now (cachePath name) producer⟩ ∧
    lookupFile (write_cache (eprintS s "Ignoring cache") now (cachePath name) producer)
      (cachePath name) = some (Json.dumps producer, now) ∧
    CACHE_FOLDER ∈
      (write_cache (eprintS s "Ignoring cache") now (cachePath name) producer).dirs := by
  refine ⟨?_, lookupFile_write_cache_self _ _ _ _, write_cache_dirs_mem _ _ _ _⟩
  have hcond : (cache_avail s now (cachePath name) && !ignorecache) = false := by
    rcases h with h | h | ⟨c, m, hcm, hstale⟩
    · simp [h]
    · have : cache_avail s now (cachePath name) = false := by
        unfold cache_avail getmtime
        rw [h]
        rfl
      simp [this]
    · have : cache_avail s now (cachePath name) = false := by
        unfold cache_avail getmtime
        rw [hcm]
        simpa using hstale
      simp [this]
  unfold use_cache build_cache
  simp [hcond]

/-- Witness for C3: force-refresh on a fresh valid cache entry. -/
theorem use_cache_miss_rebuild_witness :
    use_cache ⟨[(cachePath "k.cache", "null", 5)], [], []⟩ 10 "k.cache" (Json.num 7) true =
      some ⟨Json.num 7, 1,
        write_cache (eprintS ⟨[(cachePath "k.cache", "null", 5)], [], []⟩ "Ignoring cache") 10
          (cachePath "k.cache") (Json.num 7)⟩ ∧
    lookupFile
      (write_cache (eprintS ⟨[(cachePath "k.cache", "null", 5)], [], []⟩ "Ignoring cache") 10
        (cachePath "k.cache") (Json.num 7)) (cachePath "k.cache") = some ("7", 10) ∧
    CACHE_FOLDER ∈
      (write_cache (eprintS ⟨[(cachePath "k.cache", "null", 5)], [], []⟩ "Ignoring cache") 10
        (cachePath "k.cache") (Json.num 7)).dirs :=
  use_cache_miss_rebuild ⟨[(cachePath "k.cache", "null", 5)], [], []⟩ 10 "k.cache"
    (Json.num 7) true (Or.inl rfl)

/-- Helper: the full result of a fresh valid cache hit. -/
theorem use_cache_hit_state (s : FSState) (now : Nat) (name : String) (producer : Json)
    (content : String) (mtime : Nat) (j : Json)
    (hfile : lookupFile s (cachePath name) = some (content, mtime))
    (hfresh : now - mtime < CACHE_TIMEOUT)
    (hparse : parseJson content = some j) :
    use_cache s now name producer false =
      some ⟨j, 0, eprintS s ("Using cache " ++ basename (cachePath name))⟩ := by
  have havail : cache_avail s now (cachePath name) = true := by
    unfold cache_avail getmtime
    rw [hfile]
    simpa using hfresh
  unfold use_cache load_cache
  simp [havail, hfile, hparse]

/-- Helper: with `ignorecache = true` the rebuild path is always taken. -/
theorem use_cache_force (s : FSState) (now : Nat) (name : String) (producer : Json) :
    use_cache s now name producer true =
      some (build_cache (eprintS s "Ignoring cache") now (cachePath name) producer) := by
  unfold use_cache
  simp

/-- C8 counterexample: the raw payload text "[ ]" parses successfully, but
the rebuilt cache file holds the re-serialization "[]", which differs from
the raw text — the byte-for-byte invariant fails. -/
theorem cache_raw_bytes_counterexample :
    parseJson "[ ]" = some (Json.arr []) ∧
    (use_cache ⟨[], [], []⟩ 0 "k.cache" (Json.arr []) true).map
      (fun r => lookupFile r.state (cachePath "k.cache")) = some (some ("[]", 0)) ∧
    ("[]" : String) ≠ "[ ]" :=
  ⟨by rfl, by rfl, by decide⟩

/-- C8 amended: after every rebuild (a call in which the producer ran), the
cache file content is `json.dumps` of the parsed payload — the canonical
re-serialization — rather than the raw fetched text. -/
theorem cache_content_after_rebuild (s : FSState) (now : Nat) (name : String)
    (raw : String) (j : Json) (ignorecache : Bool) (r : CacheResult)
    (_hparse : parseJson raw = some j)
    (hrun : use_cache s now name j ignorecache = some r)
    (hrebuild : r.calls ≠ 0) :
    lookupFile r.state (cachePath name) = some (Json.dumps j, now) := by
  unfold use_cache load_cache at hrun
  by_cases hcond : (cache_avail s now (cachePath name) && !ignorecache) = true
  · simp only [hcond, if_true] at hrun
    cases hfs : lookupFile s (cachePath name) with
    | none => simp [hfs] at hrun
    | some ct =>
      cases hp : parseJson ct.1 with
      | some d =>
        simp [hfs, hp] at hrun
        rw [← hrun] at hrebuild
        simp at hrebuild
      | none =>
        simp [hfs, hp, build_cache] at hrun
        rw [← hrun]
        exact lookupFile_write_cache_self _ _ _ _
  · simp only [hcond, if_false, Bool.not_eq_true] at hrun
    rw [if_neg (by simp [hcond])] at hrun
    simp [build_cache] at hrun
    rw [← hrun]
    exact lookupFile_write_cache_self _ _ _ _

/-- Witness for C8's amended theorem on a concrete rebuild. -/
theorem cache_content_after_rebuild_witness :
    lookupFile
      (CacheResult.state
        ⟨Json.arr [], 1, write_cache (eprintS ⟨[], [], []⟩ "Ignoring cache") 0
          (cachePath "k.cache") (Json.arr [])⟩)
      (cachePath "k.cache") = some (Json.dumps (Json.arr []), 0) :=
  cache_content_after_rebuild ⟨[], [], []⟩ 0 "k.cache" "[ ]" (Json.arr []) true
    ⟨Json.arr [], 1, write_cache (eprintS ⟨[], [], []⟩ "Ignoring cache") 0
      (cachePath "k.cache") (Json.arr [])⟩
    (by rfl) (by rfl) (by decide)

/-! ## Sorting and deduplication lemmas -/

theorem char_eq_of_not_lt {a b : Char} (h1 : ¬a < b) (h2 : ¬b < a) : a = b :=
  le_antisymm (not_lt.mp h2) (not_lt.mp h1)

theorem charsLe_total : ∀ as bs, charsLe as bs = true ∨ charsLe bs as = true := by
  intro as
  induction as with
  | nil => intro bs; left; rfl
  | cons a as ih =>
    intro bs
    cases bs with
    | nil => right; rfl
    | cons b bs =>
      rcases lt_trichotomy a b with h | h | h
      · left; simp [charsLe, h]
      · subst h
        rcases ih bs with h' | h' <;> [left; right] <;> simp [charsLe, h']
      · right; simp [charsLe, h]

theorem charsLe_trans : ∀ as bs cs, charsLe as bs = true → charsLe bs cs = true →
    charsLe as cs = true := by
  intro as
  induction as with
  | nil => intro bs cs _ _; rfl
  | cons a as ih =>
    intro bs cs h1 h2
    cases bs with
    | nil => simp [charsLe] at h1
    | cons b bs =>
      cases cs with
      | nil => simp [charsLe] at h2
      | cons c cs =>
        by_cases hab : a < b
        · by_cases hbc : b < c
          · simp [charsLe, lt_trans hab hbc]
          · by_cases hcb : c < b
            · simp [charsLe, hbc, hcb] at h2
            · have : b = c := char_eq_of_not_lt hbc hcb
              subst this
              simp [charsLe, hab]
        · by_cases hba : b < a
          · simp [charsLe, hab, hba] at h1
          · have : a = b := char_eq_of_not_lt hab hba
            subst this
            by_cases hbc : a < c
            · simp [charsLe, hbc]
            · by_cases hcb : c < a
              · simp [charsLe, hbc, hcb] at h2
              · have : a = c := char_eq_of_not_lt hbc hcb
                subst this
                simp only [charsLe, if_neg (lt_irrefl a)] at h1 h2 ⊢
                exact ih bs cs h1 h2

instance : IsTotal String strLeRel :=
  ⟨fun a b => charsLe_total a.toList b.toList⟩

instance : IsTrans String strLeRel :=
  ⟨fun a b c => charsLe_trans a.toList b.toList c.toList⟩

theorem dedupFirstGo_sublist (l : List String) :
    ∀ seen, List.Sublist (dedupFirstGo seen l) l := by
  induction l with
  | nil => intro seen; simp [dedupFirstGo]
  | cons x xs ih =>
    intro seen
    by_cases h : x ∈ seen
    · simpa [dedupFirstGo, h] using (ih seen).cons x
    · simpa [dedupFirstGo, h] using (ih (x :: seen)).cons₂ x

theorem mem_dedupFirstGo_not_seen (l : List String) :
    ∀ seen x, x ∈ dedupFirstGo seen l → x ∉ seen := by
  induction l with
  | nil => intro seen x hx; simp [dedupFirstGo] at hx
  | cons y ys ih =>
    intro seen x hx
    by_cases h : y ∈ seen
    · simp only [dedupFirstGo, if_pos h] at hx
      exact ih seen x hx
    · simp only [dedupFirstGo, if_neg h, List.mem_cons] at hx
      rcases hx with rfl | hx
      · exact h
      · have := ih (y :: seen) x hx
        intro hs
        exact this (List.mem_cons_of_mem y hs)

theorem dedupFirstGo_nodup (l : List String) : ∀ seen, (dedupFirstGo seen l).Nodup := by
  induction l with
  | nil => intro seen; simp [dedupFirstGo]
  | cons y ys ih =>
    intro seen
    by_cases h : y ∈ seen
    · simpa [dedupFirstGo, h] using ih seen
    · simp only [dedupFirstGo, if_neg h, List.nodup_cons]
      refine ⟨fun hy => ?_, ih (y :: seen)⟩
      exact mem_dedupFirstGo_not_seen ys (y :: seen) y hy (List.mem_cons_self y seen)

theorem dedupFirstGo_eq_self (l : List String) :
    ∀ seen, l.Nodup → (∀ x ∈ l, x ∉ seen) → dedupFirstGo seen l = l := by
  induction l with
  | nil => intro seen _ _; rfl
  | cons y ys ih =>
    intro seen hnd hdisj
    have hy : y ∉ seen := hdisj y (List.mem_cons_self y ys)
    simp only [dedupFirstGo, if_neg hy]
    congr 1
    refine ih (y :: seen) (List.Nodup.of_cons hnd) ?_
    intro x hx
    simp only [List.mem_cons, not_or]
    exact ⟨fun hxy => (List.nodup_cons.mp hnd).1 (hxy ▸ hx), hdisj x (List.mem_cons_of_mem y hx)⟩

theorem sortDedup_sorted (l : List String) : (sortDedup l).Sorted strLeRel :=
  (List.sorted_insertionSort strLeRel l).sublist (dedupFirstGo_sublist _ [])

theorem sortDedup_nodup (l : List String) : (sortDedup l).Nodup :=
  dedupFirstGo_nodup _ []

theorem sortDedup_idem (l : List String) : sortDedup (sortDedup l) = sortDedup l := by
  unfold sortDedup dedupFirst sortStrings
  rw [List.Sorted.insertionSort_eq]
  · exact dedupFirstGo_eq_self _ [] (sortDedup_nodup l) (by simp)
  · exact sortDedup_sorted l

example : sortStrings ["b.com", "a.com"] = ["a.com", "b.com"] := by decide
example : sortDedup ["b.com", "a.com", "b.com"] = ["a.com", "b.com"] := by decide

/-! ## Item extraction: characterization and claims C4, C5, C10 -/

/-- Spec-side inclusion condition of C4: the descriptor contains the
requested field, and not (required-only requested and the descriptor's
`required` flag falsy). -/
def includeSvc (svc : Service) (item : String) (required : Bool) : Bool :=
  (lookupObj svc item).isSome &&
    !(!truthy ((lookupObj svc "required").getD Json.null) && required)

/-- The string values of a descriptor's requested field. -/
def svcItems (svc : Service) (item : String) : List String :=
  ((lookupObj svc item).bind asStrList).getD []

/-- Spec-side accumulator of C4: the concatenation, over the descriptors,
of the field values of exactly the included descriptors. -/
def specItems (data : List Service) (item : String) (required : Bool) : List String :=
  (data.map fun svc => if includeSvc svc item required then svcItems svc item else []).flatten

/-- Well-formedness of one descriptor for field `item`: if the descriptor
contains the field, it has a `required` key and the field is an array of
strings. -/
def svcWF (svc : Service) (item : String) : Prop :=
  (lookupObj svc item).isSome = true →
    (lookupObj svc "required").isSome = true ∧
    ((lookupObj svc item).bind asStrList).isSome = true

instance (item : String) : DecidablePred (fun svc => svcWF svc item) := fun svc => by
  unfold svcWF
  infer_instance

theorem collectItems_eq_specItems (item : String) (required : Bool) :
    ∀ data : List Service, (∀ svc ∈ data, svcWF svc item) →
    collectItems data item required = Except.ok (specItems data item required) := by
  intro data
  induction data with
  | nil => intro _; rfl
  | cons svc rest ih =>
    intro hwf
    have hs := hwf svc (List.mem_cons_self _ _)
    have hr : ∀ s ∈ rest, svcWF s item := fun s hs' => hwf s (List.mem_cons_of_mem _ hs')
    cases hitem : lookupObj svc item with
    | none =>
      have hinc : includeSvc svc item required = false := by simp [includeSvc, hitem]
      simp only [collectItems, hitem, specItems, List.map_cons, List.flatten, hinc, if_false,
        List.nil_append]
      exact ih hr
    | some v =>
      obtain ⟨hreq, hstr⟩ := hs (by simp [hitem])
      obtain ⟨reqv, hreqv⟩ := Option.isSome_iff_exists.mp hreq
      have hbind : (lookupObj svc item).bind asStrList = asStrList v := by simp [hitem]
      obtain ⟨vs, hvs⟩ := Option.isSome_iff_exists.mp (by rw [hbind] at hstr; exact hstr)
      by_cases hskip : (!truthy reqv && required) = true
      · have hinc : includeSvc svc item required = false := by
          simp [includeSvc, hitem, hreqv, hskip]
        simp only [collectItems, hitem, hreqv, hskip, if_true, specItems, List.map_cons,
          List.flatten, hinc, if_false, List.nil_append]
        exact ih hr
      · have hinc : includeSvc svc item required = true := by
          simp only [includeSvc, hitem, hreqv, Option.isSome_some, Option.getD_some,
            Bool.true_and]
          simp only [Bool.not_eq_true] at hskip
          simp [hskip]
        simp only [collectItems, hitem, hreqv, hskip, if_false, hvs, specItems,
          List.map_cons, List.flatten, hinc, if_true]
        rw [ih hr]
        simp only [Except.map]
        have : svcItems svc item = vs := by simp [svcItems, hitem, hvs]
        rw [this]
        rfl

/-- C4: a descriptor's field values are included in the accumulator of
`get_items` iff the descriptor contains the requested field and not
(required-only and the descriptor's `required` flag false); in particular
for `[{required:true, urls:["b.com"]}, {required:false, urls:["a.com"]}]`,
extraction with required=true yields `["b.com"]` and with required=false
yields `["a.com", "b.com"]`. -/
theorem get_items_filter_characterization (data : List Service) (item : String)
    (required : Bool) (hwf : ∀ svc ∈ data, svcWF svc item) :
    collectItems data item required = Except.ok (specItems data item required) ∧
    get_items_pure [[("required", Json.bool true), ("urls", strList ["b.com"])],
        [("required", Json.bool false), ("urls", strList ["a.com"])]] "urls" true =
      Except.ok ["b.com"] ∧
    get_items_pure [[("required", Json.bool true), ("urls", strList ["b.com"])],
        [("required", Json.bool false), ("urls", strList ["a.com"])]] "urls" false =
      Except.ok ["a.com", "b.com"] :=
  ⟨collectItems_eq_specItems item required data hwf, by rfl, by rfl⟩

/-- Witness for C4 on the claim's own descriptor data. -/
theorem get_items_filter_characterization_witness :
    collectItems [[("required", Json.bool true), ("urls", strList ["b.com"])],
        [("required", Json.bool false), ("urls", strList ["a.com"])]] "urls" true =
      Except.ok (specItems [[("required", Json.bool true), ("urls", strList ["b.com"])],
        [("required", Json.bool false), ("urls", strList ["a.com"])]] "urls" true) :=
  (get_items_filter_characterization
    [[("required", Json.bool true), ("urls", strList ["b.com"])],
      [("required", Json.bool false), ("urls", strList ["a.com"])]] "urls" true
    (by decide)).1

/-- C5: a successful extraction result is sorted ascending (lexicographic),
duplicate-free, invariant under re-applying sort-then-deduplicate, and the
extraction is deterministic. -/
theorem get_items_sorted_nodup_idem (data : List Service) (item : String) (required : Bool)
    (l : List String) (h : get_items_pure data item required = Except.ok l) :
    List.Sorted strLeRel l ∧ l.Nodup ∧ sortDedup l = l ∧
    get_items_pure data item required = get_items_pure data item required := by
  unfold get_items_pure at h
  cases hc : collectItems data item required with
  | error e => rw [hc] at h; simp [Except.map] at h
  | ok items =>
    rw [hc] at h
    simp only [Except.map, Except.ok.injEq] at h
    subst h
    exact ⟨sortDedup_sorted items, sortDedup_nodup items, sortDedup_idem items, rfl⟩

/-- Witness for C5 on concrete descriptor data. -/
theorem get_items_sorted_nodup_idem_witness :
    List.Sorted strLeRel ["a.com", "b.com"] ∧ List.Nodup ["a.com", "b.com"] ∧
    sortDedup ["a.com", "b.com"] = ["a.com", "b.com"] ∧
    get_items_pure [[("required", Json.bool true), ("urls", strList ["b.com", "a.com", "b.com"])]]
        "urls" false =
      get_items_pure [[("required", Json.bool true), ("urls", strList ["b.com", "a.com", "b.com"])]]
        "urls" false :=
  get_items_sorted_nodup_idem
    [[("required", Json.bool true), ("urls", strList ["b.com", "a.com", "b.com"])]]
    "urls" false ["a.com", "b.com"] (by rfl)

theorem collectItems_no_keyError (item : String) (required : Bool) :
    ∀ data : List Service, (∀ svc ∈ data, (lookupObj svc item).isSome = true →
      (lookupObj svc "required").isSome = true) →
    collectItems data item required ≠ Except.error GetErr.keyError := by
  intro data
  induction data with
  | nil => intro _ h; exact Except.noConfusion h
  | cons svc rest ih =>
    intro hwf
    have hs := hwf svc (List.mem_cons_self _ _)
    have hr : ∀ s ∈ rest, (lookupObj s item).isSome = true →
        (lookupObj s "required").isSome = true :=
      fun s hs' => hwf s (List.mem_cons_of_mem _ hs')
    cases hitem : lookupObj svc item with
    | none =>
      simp only [collectItems, hitem]
      exact ih hr
    | some v =>
      obtain ⟨reqv, hreqv⟩ := Option.isSome_iff_exists.mp (hs (by simp [hitem]))
      simp only [collectItems, hitem, hreqv]
      by_cases hskip : (!truthy reqv && required) = true
      · simp only [hskip, if_true]
        exact ih hr
      · simp only [hskip, if_false]
        cases hvs : asStrList v with
        | none => simp
        | some vs =>
          cases hrest : collectItems rest item required with
          | error e =>
            have : e ≠ GetErr.keyError := fun he => ih hr (he ▸ hrest)
            simp [Except.map, this]
          | ok l => simp [Except.map]

/-- C10: `get_items` reads `service["required"]` whenever the descriptor
contains the requested field, even with required-only false — so
`[{urls:["a.com"]}]` reaches the KeyError branch — and it raises no
KeyError when every descriptor containing the field has a `required` key. -/
theorem get_items_keyError_precondition (data : List Service) (item : String)
    (required : Bool)
    (hwf : ∀ svc ∈ data, (lookupObj svc item).isSome = true →
      (lookupObj svc "required").isSome = true) :
    collectItems data item required ≠ Except.error GetErr.keyError ∧
    collectItems [[("urls", strList ["a.com"])]] "urls" false =
      Except.error GetErr.keyError :=
  ⟨collectItems_no_keyError item required data hwf, by rfl⟩

/-- Witness for C10 on concrete descriptor data with a `required` key. -/
theorem get_items_keyError_precondition_witness :
    collectItems [[("required", Json.bool false), ("urls", strList ["a.com"])]] "urls" false ≠
      Except.error GetErr.keyError :=
  (get_items_keyError_precondition
    [[("required", Json.bool false), ("urls", strList ["a.com"])]] "urls" false
    (by decide)).1

/-! ## Output writer: claims C6 and C7 -/

/-- Entries each followed by the separator `s` (spec-side join helper). -/
def joinSep (s : String) : List String → String
  | [] => ""
  | a :: as => s ++ a ++ joinSep s as

theorem intercalate_go_eq (s : String) : ∀ (l : List String) (acc : String),
    String.intercalate.go acc s l = acc ++ joinSep s l := by
  intro l
  induction l with
  | nil => intro acc; simp [String.intercalate.go, joinSep]
  | cons a as ih =>
    intro acc
    simp only [String.intercalate.go, joinSep, ih]
    simp [String.append_assoc]

theorem intercalate_eq_joinSep (s x : String) (xs : List String) :
    String.intercalate s (x :: xs) = x ++ joinSep s xs := by
  simp [String.intercalate, intercalate_go_eq]

theorem write_lines_eq : ∀ (x : String) (xs : List String),
    write_lines (x :: xs) = x ++ joinSep "\n" xs := by
  intro x xs
  induction xs generalizing x with
  | nil => simp [write_lines, joinSep]
  | cons y ys ih =>
    simp only [write_lines, joinSep, ih y]
    simp [String.append_assoc]

/-- C6: for non-empty data in non-append mode, the file content is the
entries joined by single newline separators with no trailing newline;
in particular `["a", "b", "c"]` produces exactly `a\nb\nc`. -/
theorem write_to_file_newline_join (old : Option String) (data : List String)
    (hne : data ≠ []) :
    write_to_file old data false = String.intercalate "\n" data ∧
    write_to_file none ["a", "b", "c"] false = "a\nb\nc" := by
  refine ⟨?_, by rfl⟩
  cases data with
  | nil => exact absurd rfl hne
  | cons x xs =>
    rw [intercalate_eq_joinSep]
    unfold write_to_file
    rw [write_lines_eq]
    simp

/-- Witness for C6 on the claim's concrete data. -/
theorem write_to_file_newline_join_witness :
    write_to_file none ["a", "b", "c"] false = String.intercalate "\n" ["a", "b", "c"] :=
  (write_to_file_newline_join none ["a", "b", "c"] (by decide)).1

/-- C7 counterexample: appending `["d"]` after writing `["a", "b", "c"]`
yields `a\nb\ncd` — "c" and "d" are NOT separated by a newline, because the
prior write left no trailing newline; the claimed content `a\nb\nc\nd` is
wrong. -/
theorem write_append_newline_counterexample :
    write_to_file (some (write_to_file none ["a", "b", "c"] false)) ["d"] true = "a\nb\ncd" ∧
    ("a\nb\ncd" : String) ≠ "a\nb\nc\nd" :=
  ⟨by rfl, by decide⟩

/-- C7 amended: appending writes the new entries directly after the existing
content with no separator of its own; since the prior non-append write
leaves no trailing newline, `["d"]` lands immediately after `c`, giving
`a\nb\ncd`. -/
theorem write_append_direct (old : String) (data : List String) :
    write_to_file (some old) data true = old ++ write_lines data ∧
    write_to_file (some (write_to_file none ["a", "b", "c"] false)) ["d"] true = "a\nb\ncd" :=
  ⟨rfl, by rfl⟩

/-! ## CLI driver: claim C9 -/

/-- C9: the region-list cache is always consulted with force-refresh false —
with both cache files fresh and valid, the region producer is never invoked
regardless of `--ignorecache`, while the endpoint producer is invoked
exactly when `--ignorecache` is set. -/
theorem ignorecache_endpoint_only (s : FSState) (now : Nat)
    (regionsFetched endpointFetched : Json) (region item : String)
    (required ignorecache : Bool)
    (rContent eContent : String) (rM eM : Nat) (rj ej : Json)
    (svs1 svs2 : List Service)
    (hrfile : lookupFile s (cachePath "regions.cache") = some (rContent, rM))
    (hrfresh : now - rM < CACHE_TIMEOUT)
    (hrparse : parseJson rContent = some rj)
    (hefile : lookupFile s (cachePath (region ++ ".cache")) = some (eContent, eM))
    (hefresh : now - eM < CACHE_TIMEOUT)
    (heparse : parseJson eContent = some ej)
    (hsvc1 : asServices ej = some svs1)
    (hsvc2 : asServices endpointFetched = some svs2) :
    (run_tool s now regionsFetched endpointFetched region item required ignorecache).map
      (fun r => (r.regionCalls, r.endpointCalls)) =
      some (0, if ignorecache then 1 else 0) := by
  have h1 : get_regions_data s now regionsFetched =
      some ⟨rj, 0, eprintS s ("Using cache " ++ basename (cachePath "regions.cache"))⟩ :=
    use_cache_hit_state s now "regions.cache" regionsFetched rContent rM rj hrfile hrfresh hrparse
  cases ignorecache with
  | false =>
    have h2 : get_endpoint_data
        (eprintS s ("Using cache " ++ basename (cachePath "regions.cache"))) now region
        endpointFetched false =
        some ⟨ej, 0, eprintS (eprintS s ("Using cache " ++ basename (cachePath "regions.cache")))
          ("Using cache " ++ basename (cachePath (region ++ ".cache")))⟩ :=
      use_cache_hit_state _ now (region ++ ".cache") endpointFetched eContent eM ej
        (by rw [lookupFile_eprintS]; exact hefile) hefresh heparse
    unfold run_tool
    rw [h1]
    simp [h2, hsvc1]
  | true =>
    have h2 : get_endpoint_data
        (eprintS s ("Using cache " ++ basename (cachePath "regions.cache"))) now region
        endpointFetched true =
        some (build_cache
          (eprintS (eprintS s ("Using cache " ++ basename (cachePath "regions.cache")))
            "Ignoring cache") now (cachePath (region ++ ".cache")) endpointFetched) :=
      use_cache_force _ now (region ++ ".cache") endpointFetched
    unfold run_tool
    rw [h1]
    simp [h2, hsvc2, build_cache]

/-- Witness for C9 with both caches fresh and valid and `--ignorecache` set. -/
theorem ignorecache_endpoint_only_witness :
    (run_tool ⟨[(cachePath "regions.cache", "[]", 0), (cachePath "ww.cache", "[]", 0)], [], []⟩
        0 (Json.arr []) (Json.arr []) "ww" "urls" false true).map
      (fun r => (r.regionCalls, r.endpointCalls)) = some (0, if true then 1 else 0) :=
  ignorecache_endpoint_only
    ⟨[(cachePath "regions.cache", "[]", 0), (cachePath "ww.cache", "[]", 0)], [], []⟩
    0 (Json.arr []) (Json.arr []) "ww" "urls" false true "[]" "[]" 0 0
    (Json.arr []) (Json.arr []) [] []
    (by rfl) (by decide) (by rfl) (by rfl) (by decide) (by rfl) (by rfl) (by rfl)

end MSDomains
